import Mathlib

/-!
Verification of the change-apply pipeline of `substreams-sink-postgres`.

The definitions below are a shallow embedding of the Go source:

* `src/db/types.go` — the `Loader` journal and its mutation API
  (`Insert`, `Update`, `Delete`, `GetPrimaryKey`, `createRowUniqueID`);
* `src/unnamed/part_000` — the SQL sinker (`applyDatabaseChanges`,
  `batchBlockModulo`, the flush decision of `HandleBlockScopedData`);
* `src/sinker/bulk_sinker.go` — the CSV sinker
  (`dumpDatabaseChangesIntoCSV`, the cursor-persistence check of
  `HandleBlockScopedData`).

Go maps carrying string keys are embedded as association lists
(`List (String × String)`); the repository's insertion-ordered
`OrderedMap` is embedded the same way, with `setKV` updating an existing
key in place (preserving its position) and appending a new key at the
end, exactly as the ordered map behaves.  Functions that mutate the
receiver in Go are embedded as state-passing functions returning the new
state together with the `error` result, and every early `return err`
returns the state as mutated up to that point.  A Go runtime panic
(modulo by zero, nil-pointer dereference) is embedded as `Option.none`.
-/

namespace Sink

/-- First-match lookup in an association list (embeds both Go map indexing
`m[k]` and the repository's `OrderedMap.Get`). -/
def lookupKV {β : Type} : List (String × β) → String → Option β
  | [], _ => none
  | (k', v) :: rest, k => if k' = k then some v else lookupKV rest k

/-- Key update in an association list (embeds both Go map assignment
`m[k] = v` and the repository's `OrderedMap.Set`): an existing key keeps its
position, a new key is appended. -/
def setKV {β : Type} : List (String × β) → String → β → List (String × β)
  | [], k, v => [(k, v)]
  | (k', v') :: rest, k, v =>
    if k' = k then (k, v) :: rest else (k', v') :: setKV rest k v

/-- The operation kinds of the journal (`OperationType` in `src/db`). -/
inductive OperationType : Type
  | opInsert
  | opUpdate
  | opDelete
deriving DecidableEq, Repr

/-- Table metadata needed by the mutation API (`TableInfo` in
`src/db/types.go`): the table name and the names of its primary-key
columns, in declaration order. -/
structure TableInfo : Type where
  name : String
  primaryColumns : List String
deriving DecidableEq, Repr

/-- A pending journal operation (`Operation` in `src/db`). -/
structure Operation : Type where
  opType : OperationType
  tableName : String
  primaryKey : List (String × String)
  opData : List (String × String)
  reversibleBlockNum : Option Nat
deriving DecidableEq, Repr

/-- Modelled from the spec: the constructor behind `l.newInsertOperation`
(the constructor body lives outside `src/`); it records the operation kind,
table, primary key, data and reversible block. -/
def newInsertOperation (table : TableInfo) (primaryKey opData : List (String × String))
    (reversibleBlockNum : Option Nat) : Operation :=
  ⟨.opInsert, table.name, primaryKey, opData, reversibleBlockNum⟩

/-- Modelled from the spec: the constructor behind `l.newUpdateOperation`
(outside `src/`). -/
def newUpdateOperation (table : TableInfo) (primaryKey opData : List (String × String))
    (reversibleBlockNum : Option Nat) : Operation :=
  ⟨.opUpdate, table.name, primaryKey, opData, reversibleBlockNum⟩

/-- Modelled from the spec: the constructor behind `l.newDeleteOperation`
(outside `src/`); per the spec's `Operation` invariant, `data` is empty for
a Delete. -/
def newDeleteOperation (table : TableInfo) (primaryKey : List (String × String))
    (reversibleBlockNum : Option Nat) : Operation :=
  ⟨.opDelete, table.name, primaryKey, [], reversibleBlockNum⟩

/-- Modelled from the spec: `Operation.mergeData` (outside `src/`) merges the
new fields into the operation's data field-by-field, last write winning per
field; the operation kind and every other field are untouched. -/
def Operation.mergeData (op : Operation) (newData : List (String × String)) : Operation :=
  { op with opData := newData.foldl (fun acc kv => setKV acc kv.1 kv.2) op.opData }

/-- The Loader state relevant to the mutation API (`Loader` in `src/db`):
the table registry, the in-memory journal `entries`
(table → rowId → Operation, both levels insertion-ordered), the journal
entry counter, and the dialect's `OnlyInserts()` capability flag. -/
structure Loader : Type where
  tables : List (String × TableInfo)
  entries : List (String × List (String × Operation))
  entriesCount : Nat
  onlyInserts : Bool
deriving DecidableEq, Repr

/-- The journal operation pending for `(tableName, uniqueID)`, if any. -/
def journalOp (l : Loader) (tableName uniqueID : String) : Option Operation :=
  lookupKV ((lookupKV l.entries tableName).getD []) uniqueID

/-- Lexicographic comparison of character lists, embedding the Go string
order `keys[i] < keys[j]` used by `sort.Slice` and `sort.Strings`;
`charListLeb as bs = true` exactly when `as ≤ bs`. -/
def charListLeb : List Char → List Char → Bool
  | [], _ => true
  | _ :: _, [] => false
  | a :: as, b :: bs =>
    if a.toNat < b.toNat then true
    else if b.toNat < a.toNat then false
    else charListLeb as bs

/-- `≤` on strings as Go compares them (lexicographic on the characters). -/
def strLe (a b : String) : Prop := charListLeb a.data b.data = true

instance : DecidableRel strLe := fun a b => by
  unfold strLe
  infer_instance

instance : IsTotal String strLe where
  total a b := by
    unfold strLe
    generalize a.data = as
    generalize b.data = bs
    induction as generalizing bs with
    | nil => exact Or.inl rfl
    | cons x xs ih =>
      cases bs with
      | nil => exact Or.inr rfl
      | cons y ys =>
        by_cases h1 : x.toNat < y.toNat
        · exact Or.inl (by simp [charListLeb, h1])
        · by_cases h2 : y.toNat < x.toNat
          · exact Or.inr (by simp [charListLeb, h2])
          · rcases ih ys with h | h
            · exact Or.inl (by simp [charListLeb, h1, h2, h])
            · exact Or.inr (by simp [charListLeb, h2, h1, h])

instance : IsTrans String strLe where
  trans a b c := by
    unfold strLe
    generalize a.data = as
    generalize b.data = bs
    generalize c.data = cs
    induction as generalizing bs cs with
    | nil => intro _ _; rfl
    | cons x xs ih =>
      intro h1 h2
      cases bs with
      | nil => simp [charListLeb] at h1
      | cons y ys =>
        cases cs with
        | nil => simp [charListLeb] at h2
        | cons z zs =>
          by_cases hxy : x.toNat < y.toNat
          · by_cases hyz : y.toNat < z.toNat
            · have hxz : x.toNat < z.toNat := Nat.lt_trans hxy hyz
              simp [charListLeb, hxz]
            · by_cases hzy : z.toNat < y.toNat
              · simp [charListLeb, hyz, hzy] at h2
              · have heq : y.toNat = z.toNat :=
                  le_antisymm (Nat.not_lt.mp hzy) (Nat.not_lt.mp hyz)
                have hxz : x.toNat < z.toNat := heq ▸ hxy
                simp [charListLeb, hxz]
          · by_cases hyx : y.toNat < x.toNat
            · simp [charListLeb, hxy, hyx] at h1
            · have hexy : x.toNat = y.toNat :=
                le_antisymm (Nat.not_lt.mp hyx) (Nat.not_lt.mp hxy)
              have h1' : charListLeb xs ys = true := by
                simpa [charListLeb, hxy, hyx] using h1
              by_cases hyz : y.toNat < z.toNat
              · have hxz : x.toNat < z.toNat := hexy ▸ hyz
                simp [charListLeb, hxz]
              · by_cases hzy : z.toNat < y.toNat
                · simp [charListLeb, hyz, hzy] at h2
                · have heyz : y.toNat = z.toNat :=
                    le_antisymm (Nat.not_lt.mp hzy) (Nat.not_lt.mp hyz)
                  have h2' : charListLeb ys zs = true := by
                    simpa [charListLeb, hyz, hzy] using h2
                  have hnxz : ¬ x.toNat < z.toNat := by
                    rw [hexy, heyz]; exact Nat.lt_irrefl _
                  have hnzx : ¬ z.toNat < x.toNat := by
                    rw [hexy, heyz]; exact Nat.lt_irrefl _
                  simp only [charListLeb, if_neg hnxz, if_neg hnzx]
                  exact ih ys zs h1' h2'

instance : IsAntisymm String strLe where
  antisymm a b h1 h2 := by
    obtain ⟨as⟩ := a
    obtain ⟨bs⟩ := b
    unfold strLe at h1 h2
    refine congrArg String.mk ?_
    simp only at h1 h2
    revert h1 h2
    induction as generalizing bs with
    | nil =>
      intro h1 h2
      cases bs with
      | nil => rfl
      | cons y ys => simp [charListLeb] at h2
    | cons x xs ih =>
      intro h1 h2
      cases bs with
      | nil => simp [charListLeb] at h1
      | cons y ys =>
        by_cases hxy : x.toNat < y.toNat
        · have hnyx : ¬ y.toNat < x.toNat := Nat.lt_asymm hxy
          simp [charListLeb, hnyx, hxy] at h2
        · by_cases hyx : y.toNat < x.toNat
          · simp [charListLeb, hxy, hyx] at h1
          · have heq : x.toNat = y.toNat :=
              le_antisymm (Nat.not_lt.mp hyx) (Nat.not_lt.mp hxy)
            have hx : x = y := Char.ext (UInt32.ext heq)
            have h1' : charListLeb xs ys = true := by
              simpa [charListLeb, hxy, hyx] using h1
            have h2' : charListLeb ys xs = true := by
              simpa [charListLeb, hyx, hxy] using h2
            rw [hx, ih ys h1' h2']

/-- `createRowUniqueID` (src/db/types.go:129): a singleton primary-key map
yields its bare value; otherwise the keys are sorted and the corresponding
values joined with `/`. -/
def createRowUniqueID (m : List (String × String)) : String :=
  match m with
  | [(_, v)] => v
  | _ =>
    let keys := (m.map Prod.fst).insertionSort strLe
    String.intercalate "/" (keys.map (fun k => (lookupKV m k).getD ""))

/-- The primary-key copy loop of `Loader.Insert` (src/db/types.go:117-122):
every primary-key column present in `primaryKey` is copied into the data map
so that those columns get written. -/
def insertDataFull (table : TableInfo) (primaryKey dataArg : List (String × String)) :
    List (String × String) :=
  table.primaryColumns.foldl (fun acc primary =>
    match lookupKV primaryKey primary with
    | some v => setKV acc primary v
    | none => acc) dataArg

/-- `Loader.Insert` (src/db/types.go:87): reject an unknown table, create the
per-table sub-journal if absent, reject a duplicate rowId, copy the
primary-key columns into the data, then journal an Insert operation and bump
the entry count. -/
def Loader.Insert (l : Loader) (tableName : String)
    (primaryKey dataArg : List (String × String)) (reversibleBlockNum : Option Nat) :
    Except String Unit × Loader :=
  let uniqueID := createRowUniqueID primaryKey
  match lookupKV l.tables tableName with
  | none => (.error ("unknown table " ++ tableName), l)
  | some table =>
    let entry := (lookupKV l.entries tableName).getD []
    let l1 := if (lookupKV l.entries tableName).isSome then l
              else { l with entries := setKV l.entries tableName entry }
    if (lookupKV entry uniqueID).isSome then
      (.error ("primary key already scheduled for insertion in table " ++ tableName), l1)
    else
      let entry1 := setKV entry uniqueID
        (newInsertOperation table primaryKey (insertDataFull table primaryKey dataArg)
          reversibleBlockNum)
      (.ok (), { l1 with entries := setKV l1.entries tableName entry1,
                          entriesCount := l1.entriesCount + 1 })

/-- `Loader.GetPrimaryKey` (src/db/types.go:155): resolve a single-string
primary key against the table's primary columns.  In Go an unknown table
dereferences a nil `*TableInfo` and panics; the panic is embedded as `none`. -/
def Loader.GetPrimaryKey (l : Loader) (tableName : String) (pk : String) :
    Option (Except String (List (String × String))) :=
  match lookupKV l.tables tableName with
  | none => none
  | some table =>
    match table.primaryColumns with
    | [] => some (.error "table has no primary key, single primary key unsupported")
    | [c] => some (.ok [(c, pk)])
    | _ => some (.error "table has a composite primary key, single primary key unsupported")

/-- `Loader.Update` (src/db/types.go:174): reject on an insert-only dialect,
unknown table or key-less table; create the sub-journal if absent; an
existing Delete at the rowId is an error, any other existing operation gets
the new fields merged in; otherwise journal a fresh Update and bump the
count. -/
def Loader.Update (l : Loader) (tableName : String)
    (primaryKey dataArg : List (String × String)) (reversibleBlockNum : Option Nat) :
    Except String Unit × Loader :=
  if l.onlyInserts then
    (.error "update operation is not supported by the current database", l)
  else
    let uniqueID := createRowUniqueID primaryKey
    match lookupKV l.tables tableName with
    | none => (.error ("unknown table " ++ tableName), l)
    | some table =>
      if table.primaryColumns = [] then
        (.error ("table " ++ tableName ++ " has no primary key, UPDATE not accepted"), l)
      else
        let entry := (lookupKV l.entries tableName).getD []
        let l1 := if (lookupKV l.entries tableName).isSome then l
                  else { l with entries := setKV l.entries tableName entry }
        match lookupKV entry uniqueID with
        | some op =>
          if op.opType = OperationType.opDelete then
            (.error "attempting to update an object scheduled to be deleted", l1)
          else
            (.ok (), { l1 with
              entries := setKV l1.entries tableName
                (setKV entry uniqueID (op.mergeData dataArg)) })
        | none =>
          (.ok (), { l1 with
            entries := setKV l1.entries tableName
              (setKV entry uniqueID (newUpdateOperation table primaryKey dataArg reversibleBlockNum)),
            entriesCount := l1.entriesCount + 1 })

/-- `Loader.Delete` (src/db/types.go:229): reject on an insert-only dialect,
unknown table, or a table without exactly one primary column; create the
sub-journal if absent; bump the count only when no operation existed at the
rowId; then overwrite the rowId with a Delete operation. -/
def Loader.Delete (l : Loader) (tableName : String)
    (primaryKey : List (String × String)) (reversibleBlockNum : Option Nat) :
    Except String Unit × Loader :=
  if l.onlyInserts then
    (.error "delete operation is not supported by the current database", l)
  else
    let uniqueID := createRowUniqueID primaryKey
    match lookupKV l.tables tableName with
    | none => (.error ("unknown table " ++ tableName), l)
    | some table =>
      if table.primaryColumns.length ≠ 1 then
        (.error ("table " ++ tableName ++ " has no single primary key, DELETE not accepted"), l)
      else
        let entry := (lookupKV l.entries tableName).getD []
        let l1 := if (lookupKV l.entries tableName).isSome then l
                  else { l with entries := setKV l.entries tableName entry }
        let l2 := if (lookupKV entry uniqueID).isSome then l1
                  else { l1 with entriesCount := l1.entriesCount + 1 }
        (.ok (), { l2 with
          entries := setKV l2.entries tableName
            (setKV entry uniqueID (newDeleteOperation table primaryKey reversibleBlockNum)) })

/-! ### SQL sinker (`src/unnamed/part_000`) -/

/-- `HISTORICAL_BLOCK_FLUSH_EACH` (src/unnamed/part_000:21). -/
def HISTORICAL_BLOCK_FLUSH_EACH : Nat := 1000

/-- `LIVE_BLOCK_FLUSH_EACH` (src/unnamed/part_000:22). -/
def LIVE_BLOCK_FLUSH_EACH : Nat := 1

/-- `SQLSinker.batchBlockModulo` (src/unnamed/part_000:213): a nil liveness
pointer panics (embedded as `none`); a live block flushes every block; a
historical block flushes every `FlushInterval()` blocks when that is
positive, otherwise every `HISTORICAL_BLOCK_FLUSH_EACH` blocks.
`FlushInterval` is a signed Go duration, embedded as `Int`. -/
def batchBlockModulo (flushInterval : Int) (isLive : Option Bool) : Option Nat :=
  match isLive with
  | none => none
  | some true => some LIVE_BLOCK_FLUSH_EACH
  | some false =>
    if flushInterval > 0 then some flushInterval.toNat
    else some HISTORICAL_BLOCK_FLUSH_EACH

/-- The flush decision of `SQLSinker.HandleBlockScopedData`
(src/unnamed/part_000:121): `Loader.Flush` is called exactly when
`data.Clock.Number % s.batchBlockModulo(data, isLive) == 0`; the modulo
inherits `batchBlockModulo`'s panic on a nil liveness pointer. -/
def sqlSinkerShouldFlush (blockNum : Nat) (flushInterval : Int) (isLive : Option Bool) :
    Option Bool :=
  (batchBlockModulo flushInterval isLive).map (fun m => blockNum % m = 0)

/-- The reversible-block computation of `SQLSinker.applyDatabaseChanges`
(src/unnamed/part_000:181-184): `reversibleBlockNum` is set to the block
number exactly when `blockNum > finalBlockNum`. -/
def applyChangesReversibleBlockNum (blockNum finalBlockNum : Nat) : Option Nat :=
  if blockNum > finalBlockNum then some blockNum else none

/-- The primary-key oneof of a decoded `TableChange`
(`TableChange_Pk` / `TableChange_CompositePk`). -/
inductive PrimaryKeySpec : Type
  | pk (value : String)
  | compositePk (keys : List (String × String))
deriving DecidableEq, Repr

/-- A decoded `TableChange` operation
(`sf.substreams.sink.database.v1.TableChange.Operation`). -/
inductive ChangeOperation : Type
  | unset
  | create
  | update
  | delete
deriving DecidableEq, Repr

/-- One field of a decoded `TableChange`. -/
structure ChangeField : Type where
  name : String
  newValue : String
deriving DecidableEq, Repr

/-- A decoded `TableChange` of a `DatabaseChanges` payload. -/
structure TableChange : Type where
  table : String
  primaryKey : PrimaryKeySpec
  operation : ChangeOperation
  fields : List ChangeField
deriving DecidableEq, Repr

/-- The primary-key resolution shared by both sinkers
(src/unnamed/part_000:162-174, src/sinker/bulk_sinker.go:207-219): a
single-string key goes through `Loader.GetPrimaryKey` (whose nil-table
panic propagates as `none`), a composite key is taken as-is. -/
def resolvePrimaryKey (l : Loader) (tableName : String) :
    PrimaryKeySpec → Option (Except String (List (String × String)))
  | .pk value => l.GetPrimaryKey tableName value
  | .compositePk keys => some (.ok keys)

/-- The per-change body of `SQLSinker.applyDatabaseChanges`
(src/unnamed/part_000:152-205): reject a change for an unknown table,
resolve the primary key, collect the fields' new values, compute the
reversible block via `applyChangesReversibleBlockNum`, then dispatch to the
Loader; an `UNSET` operation is silently skipped (the empty `default`
branch). -/
def applyDatabaseChange (l : Loader) (blockNum finalBlockNum : Nat)
    (change : TableChange) : Option (Except String Loader) :=
  if (lookupKV l.tables change.table).isNone then
    some (.error ("change for an unknown table " ++ change.table))
  else
    match resolvePrimaryKey l change.table change.primaryKey with
    | none => none
    | some (.error e) => some (.error e)
    | some (.ok primaryKeys) =>
      let changes := change.fields.foldl (fun acc f => setKV acc f.name f.newValue) []
      let reversibleBlockNum := applyChangesReversibleBlockNum blockNum finalBlockNum
      match change.operation with
      | .create =>
        match l.Insert change.table primaryKeys changes reversibleBlockNum with
        | (.error e, _) => some (.error ("database insert: " ++ e))
        | (.ok _, l1) => some (.ok l1)
      | .update =>
        match l.Update change.table primaryKeys changes reversibleBlockNum with
        | (.error e, _) => some (.error ("database update: " ++ e))
        | (.ok _, l1) => some (.ok l1)
      | .delete =>
        match l.Delete change.table primaryKeys reversibleBlockNum with
        | (.error e, _) => some (.error ("database delete: " ++ e))
        | (.ok _, l1) => some (.ok l1)
      | .unset => some (.ok l)

/-! ### CSV sinker (`src/sinker/bulk_sinker.go`) -/

/-- The state of one per-table file bundler as the CSV dump sees it
(`bundler.Bundler` fields used at src/sinker/bulk_sinker.go:221-236): the
header line, the `HeaderWritten` flag, and the byte strings written so far. -/
structure FileBundler : Type where
  header : String
  headerWritten : Bool
  writes : List String
deriving DecidableEq, Repr

/-- Modelled from the spec: `bundler.CSVEncode` (outside `src/`) encodes the
field map as a single CSV line; the layout (values of the
lexicographically-sorted columns joined by commas, then a newline) follows
the spec's CSV description and no claim depends on more than a row being
produced. -/
def CSVEncode (fields : List (String × String)) : String :=
  String.intercalate ","
    (((fields.map Prod.fst).insertionSort strLe).map
      (fun k => (lookupKV fields k).getD "")) ++ "\n"

/-- The writer interaction of the CSV dump's CREATE branch
(src/sinker/bulk_sinker.go:232-236): write the header first if it has not
been written yet, then write the encoded row. -/
def bundlerWriteRow (tb : FileBundler) (rowBytes : String) : FileBundler :=
  let tb1 := if tb.headerWritten then tb
             else { tb with writes := tb.writes ++ [tb.header], headerWritten := true }
  { tb1 with writes := tb1.writes ++ [rowBytes] }

/-- The per-change body of `BulkSinker.dumpDatabaseChangesIntoCSV`
(src/sinker/bulk_sinker.go:196-242): reject a change for an unknown table,
resolve the primary key, look up the table's bundler; a CREATE change merges
the fields over the primary-key map, CSV-encodes them and writes them to the
bundler; the UPDATE and DELETE cases are empty (the change is skipped with
no error and no write); any other operation hits the `default` branch and is
rejected. -/
def dumpDatabaseChangeIntoCSV (l : Loader) (bundlers : List (String × FileBundler))
    (change : TableChange) : Option (Except String (List (String × FileBundler))) :=
  if (lookupKV l.tables change.table).isNone then
    some (.error ("change for an unknown table " ++ change.table))
  else
    match resolvePrimaryKey l change.table change.primaryKey with
    | none => none
    | some (.error e) => some (.error e)
    | some (.ok pkFields) =>
      match lookupKV bundlers change.table with
      | none => some (.error ("cannot get bundler writer for table " ++ change.table))
      | some tableBundler =>
        match change.operation with
        | .create =>
          let fields := change.fields.foldl (fun acc f => setKV acc f.name f.newValue) pkFields
          let rowBytes := CSVEncode fields
          some (.ok (setKV bundlers change.table (bundlerWriteRow tableBundler rowBytes)))
        | .update => some (.ok bundlers)
        | .delete => some (.ok bundlers)
        | .unset => some (.error "Currently, we only support append only databases")

/-- `BulkSinker.dumpDatabaseChangesIntoCSV` over a whole decoded payload:
the loop stops at the first error. -/
def dumpDatabaseChangesIntoCSV (l : Loader) (bundlers : List (String × FileBundler)) :
    List TableChange → Option (Except String (List (String × FileBundler)))
  | [] => some (.ok bundlers)
  | change :: rest =>
    match dumpDatabaseChangeIntoCSV l bundlers change with
    | none => none
    | some (.error e) => some (.error e)
    | some (.ok bundlers1) => dumpDatabaseChangesIntoCSV l bundlers1 rest

/-- The cursor-persistence check of `BulkSinker.HandleBlockScopedData`
(src/sinker/bulk_sinker.go:178): `cursor.Block().Num() % s.bundleSize == 0`,
with no guard on `bundleSize`; Go's modulo by zero panics, embedded as
`none`. -/
def bulkCursorPersistCheck (blockNum bundleSize : Nat) : Option Bool :=
  if bundleSize = 0 then none else some (blockNum % bundleSize = 0)

/-! ### Spec-side reference definitions (for refinement claims) -/

/-- The claim's reference definition of the row id (spec §3): the values of
the primary-key map sorted by their column names and joined with `/` for a
map with more than one entry, and the bare value for a singleton map. -/
def rowUniqueIDSpec (m : List (String × String)) : String :=
  match m with
  | [(_, v)] => v
  | _ => String.intercalate "/" ((m.insertionSort (fun a b => strLe a.1 b.1)).map Prod.snd)

/-- The claim's flush modulus `M` (spec §4.6): `1` if live, else
`FlushInterval()` when positive, else `1000`. -/
def claimFlushModulo (flushInterval : Int) (isLive : Bool) : Nat :=
  if isLive then 1 else if flushInterval > 0 then flushInterval.toNat else 1000

/-- Modelled from the spec: the statement kind the Flush loop (outside
`src/`) emits for one journal operation — `insertRowSQL`, `updateRowSQL` or
`deleteRowSQL` according to the operation's kind (spec §4.1, §4.4). -/
inductive StatementKind : Type
  | insertRow
  | updateRow
  | deleteRow
deriving DecidableEq, Repr

/-- Modelled from the spec: which dialect statement an operation emits at
Flush (spec §4.1, §4.4). -/
def flushStatementKind (op : Operation) : StatementKind :=
  match op.opType with
  | .opInsert => .insertRow
  | .opUpdate => .updateRow
  | .opDelete => .deleteRow

/-! ### Concrete fixtures used by witnesses and counterexamples -/

/-- A table `t` with the single primary-key column `id`. -/
def tableT : TableInfo := ⟨"t", ["id"]⟩

/-- A loader knowing only table `t`, with an empty journal, on a dialect
that supports updates and deletes. -/
def loader0 : Loader := ⟨[("t", tableT)], [], 0, false⟩

/-- The loader after `Insert("t", id=42, {}, nil)` on `loader0`. -/
def loaderIns : Loader := (loader0.Insert "t" [("id", "42")] [] none).2

/-- The loader after the further `Delete("t", id=42, nil)` on `loaderIns`. -/
def loaderDel : Loader := (loaderIns.Delete "t" [("id", "42")] none).2

/-- The journal operation `loaderIns` holds for `("t", "42")`. -/
def opIns : Operation := newInsertOperation tableT [("id", "42")] [("id", "42")] none

/-- A fresh file bundler for table `t` (header not yet written). -/
def bundler0 : FileBundler := ⟨"id\n", false, []⟩

/-- The bundler map holding only `bundler0` for table `t`. -/
def bundlers0 : List (String × FileBundler) := [("t", bundler0)]

/-- A decoded UPDATE `TableChange` for table `t`, primary key `1`. -/
def chgUpd : TableChange := ⟨"t", .pk "1", .update, []⟩

/-- A decoded DELETE `TableChange` for table `t`, primary key `1`. -/
def chgDel : TableChange := ⟨"t", .pk "1", .delete, []⟩

/-! ### Association-list lemmas -/

theorem lookup_setKV_self {β : Type} (m : List (String × β)) (k : String) (v : β) :
    lookupKV (setKV m k v) k = some v := by
  induction m with
  | nil => simp [setKV, lookupKV]
  | cons hd tl ih =>
    by_cases h : hd.1 = k
    · simp [setKV, lookupKV, h]
    · simpa [setKV, lookupKV, h] using ih

theorem lookup_setKV_ne {β : Type} (m : List (String × β)) (k k' : String) (v : β)
    (h : k ≠ k') : lookupKV (setKV m k v) k' = lookupKV m k' := by
  induction m with
  | nil => simp [setKV, lookupKV, h]
  | cons hd tl ih =>
    by_cases h2 : hd.1 = k
    · simp [setKV, lookupKV, h2, h]
    · simp only [setKV, lookupKV, if_neg h2]
      by_cases h3 : hd.1 = k'
      · simp [lookupKV, h3]
      · simpa [lookupKV, h3] using ih

theorem length_setKV_of_isSome {β : Type} (m : List (String × β)) (k : String) (v : β)
    (h : (lookupKV m k).isSome) : (setKV m k v).length = m.length := by
  induction m with
  | nil => simp [lookupKV] at h
  | cons hd tl ih =>
    by_cases h2 : hd.1 = k
    · simp [setKV, h2]
    · simp only [lookupKV, if_neg h2, Option.isSome] at h
      simp only [setKV, if_neg h2, List.length_cons]
      rw [ih h]

theorem setKV_setKV {β : Type} (m : List (String × β)) (k : String) (v1 v2 : β) :
    setKV (setKV m k v1) k v2 = setKV m k v2 := by
  induction m with
  | nil => simp [setKV]
  | cons hd tl ih =>
    by_cases h : hd.1 = k
    · simp [setKV, h]
    · simp [setKV, h, ih]

theorem lookup_eq_some_of_mem {β : Type} {m : List (String × β)} {k : String} {v : β}
    (hnd : (m.map Prod.fst).Nodup) (hmem : (k, v) ∈ m) : lookupKV m k = some v := by
  induction m with
  | nil => simp at hmem
  | cons hd tl ih =>
    simp only [List.map_cons, List.nodup_cons] at hnd
    rcases List.mem_cons.mp hmem with h | h
    · simp [lookupKV, ← h]
    · have hne : hd.1 ≠ k := by
        intro he
        exact hnd.1 (he ▸ List.mem_map_of_mem Prod.fst h)
      simp only [lookupKV, if_neg hne]
      exact ih hnd.2 h

theorem lookup_eq_of_perm {β : Type} {m1 m2 : List (String × β)} (hp : m1.Perm m2)
    (hnd : (m1.map Prod.fst).Nodup) (k : String) : lookupKV m1 k = lookupKV m2 k := by
  have hnd2 : (m2.map Prod.fst).Nodup := ((hp.map Prod.fst).nodup_iff).mp hnd
  cases h1 : lookupKV m1 k with
  | some v =>
    have hv : (k, v) ∈ m1 := by
      clear hp hnd hnd2
      induction m1 with
      | nil => simp [lookupKV] at h1
      | cons hd tl ih =>
        by_cases h2 : hd.1 = k
        · simp only [lookupKV, if_pos h2, Option.some.injEq] at h1
          exact List.mem_cons.mpr (Or.inl (by rw [← h1, ← h2]))
        · simp only [lookupKV, if_neg h2] at h1
          exact List.mem_cons.mpr (Or.inr (ih h1))
    exact (lookup_eq_some_of_mem hnd2 (hp.mem_iff.mp hv)).symm
  | none =>
    cases h2 : lookupKV m2 k with
    | none => rfl
    | some v =>
      have hv : (k, v) ∈ m2 := by
        clear hp hnd hnd2 h1
        induction m2 with
        | nil => simp [lookupKV] at h2
        | cons hd tl ih =>
          by_cases h3 : hd.1 = k
          · simp only [lookupKV, if_pos h3, Option.some.injEq] at h2
            exact List.mem_cons.mpr (Or.inl (by rw [← h2, ← h3]))
          · simp only [lookupKV, if_neg h3] at h2
            exact List.mem_cons.mpr (Or.inr (ih h2))
      rw [lookup_eq_some_of_mem hnd (hp.mem_iff.mpr hv)] at h1
      exact absurd h1 (by simp)

/-! ### Claims -/

/-- C9: `BulkSinker.HandleBlockScopedData` computes
`cursor.Block().Num() % bundleSize == 0` with no zero guard: for
`bundleSize > 0` the check is total (it evaluates the modulo condition),
and for `bundleSize = 0` every block hits the division-by-zero panic. -/
theorem bulk_cursor_check_guard (blockNum bundleSize : Nat) :
    (0 < bundleSize →
      bulkCursorPersistCheck blockNum bundleSize = some (decide (blockNum % bundleSize = 0))) ∧
    (bundleSize = 0 → bulkCursorPersistCheck blockNum bundleSize = none) := by
  constructor
  · intro h
    simp [bulkCursorPersistCheck, Nat.pos_iff_ne_zero.mp h]
  · intro h
    simp [bulkCursorPersistCheck, h]

/-- Witness for C9 at `blockNum = 6`: with `bundleSize = 3` the check is
total and evaluates to true, with `bundleSize = 0` it is the panic. -/
theorem bulk_cursor_check_guard_witness :
    bulkCursorPersistCheck 6 3 = some true ∧ bulkCursorPersistCheck 6 0 = none := by
  refine ⟨?_, (bulk_cursor_check_guard 6 0).2 rfl⟩
  have h := (bulk_cursor_check_guard 6 3).1 (by decide)
  simpa using h

/-- C6: the SQL sinker's flush decision — `Loader.Flush` runs exactly when
`data.Clock.Number mod M == 0` with `M = 1` for a live block, else
`FlushInterval()` when positive, else `1000`: the code's modulus
(`batchBlockModulo`) coincides with the claim's `M` whenever the liveness
pointer is non-nil. -/
theorem flush_decision_eq_claim_modulo (blockNum : Nat) (flushInterval : Int)
    (isLive : Bool) :
    sqlSinkerShouldFlush blockNum flushInterval (some isLive) =
      some (decide (blockNum % claimFlushModulo flushInterval isLive = 0)) := by
  cases isLive with
  | true =>
    simp [sqlSinkerShouldFlush, batchBlockModulo, claimFlushModulo, LIVE_BLOCK_FLUSH_EACH]
  | false =>
    by_cases h : flushInterval > 0 <;>
      simp [sqlSinkerShouldFlush, batchBlockModulo, claimFlushModulo,
        HISTORICAL_BLOCK_FLUSH_EACH, h]

/-- C1 counterexample: the claim states that for `B ≥ finalBlock` no
`__block_num__` is recorded; at `B = 1`, `finalBlock = 0` we have
`B ≥ finalBlock`, yet `applyDatabaseChanges` passes
`reversibleBlockNum = some 1` to the Loader. -/
theorem reversibleBlockNum_claim_cex :
    (1 : Nat) ≥ 0 ∧ applyChangesReversibleBlockNum 1 0 = some 1 := by
  decide

/-- C1 amended: the operation passed to the Loader carries
`reversibleBlockNum = B` exactly for blocks `B > finalBlock`; for
`B ≤ finalBlock` no `__block_num__` is recorded. -/
theorem reversibleBlockNum_above_final (blockNum finalBlockNum : Nat) :
    (blockNum ≤ finalBlockNum →
      applyChangesReversibleBlockNum blockNum finalBlockNum = none) ∧
    (finalBlockNum < blockNum →
      applyChangesReversibleBlockNum blockNum finalBlockNum = some blockNum) := by
  constructor
  · intro h
    simp [applyChangesReversibleBlockNum, Nat.not_lt.mpr h]
  · intro h
    simp [applyChangesReversibleBlockNum, h]

/-- Witness for C1's amended theorem at `B = 3, final = 5` (no record) and
`B = 5, final = 3` (record `5`). -/
theorem reversibleBlockNum_above_final_witness :
    applyChangesReversibleBlockNum 3 5 = none ∧
      applyChangesReversibleBlockNum 5 3 = some 5 :=
  ⟨(reversibleBlockNum_above_final 3 5).1 (by decide),
   (reversibleBlockNum_above_final 5 3).2 (by decide)⟩

/-- C10: on a known table, `Loader.GetPrimaryKey` errors exactly when the
table's primary-key column count differs from one, and for a single primary
column `c` it returns the singleton map `c ↦ pk`. -/
theorem getPrimaryKey_single_column (l : Loader) (t pk : String) (ti : TableInfo)
    (h : lookupKV l.tables t = some ti) :
    ((∃ e, l.GetPrimaryKey t pk = some (.error e)) ↔ ti.primaryColumns.length ≠ 1) ∧
    (∀ c, ti.primaryColumns = [c] → l.GetPrimaryKey t pk = some (.ok [(c, pk)])) := by
  constructor
  · constructor
    · rintro ⟨e, he⟩ hlen
      match hc : ti.primaryColumns, hlen with
      | [c], _ =>
        simp [Loader.GetPrimaryKey, h, hc] at he
    · intro hlen
      match hc : ti.primaryColumns with
      | [] =>
        refine ⟨"table has no primary key, single primary key unsupported", ?_⟩
        simp [Loader.GetPrimaryKey, h, hc]
      | [c] => simp [hc] at hlen
      | a :: b :: rest =>
        refine ⟨"table has a composite primary key, single primary key unsupported", ?_⟩
        simp [Loader.GetPrimaryKey, h, hc]
  · intro c hc
    simp [Loader.GetPrimaryKey, h, hc]

/-- Witness for C10: on `loader0`'s table `t` (single primary column `id`),
resolving the key `42` yields `id ↦ 42` and no error. -/
theorem getPrimaryKey_single_column_witness :
    loader0.GetPrimaryKey "t" "42" = some (.ok [("id", "42")]) :=
  (getPrimaryKey_single_column loader0 "t" "42" tableT rfl).2 "id" rfl

/-- A rowId with a pending journal operation forces the per-table
sub-journal to exist. -/
theorem entries_isSome_of_journalOp {l : Loader} {t uid : String} {op0 : Operation}
    (hop : journalOp l t uid = some op0) :
    ∃ entry, lookupKV l.entries t = some entry ∧ lookupKV entry uid = some op0 := by
  cases he : lookupKV l.entries t with
  | none => simp [journalOp, he, lookupKV] at hop
  | some entry =>
    refine ⟨entry, rfl, ?_⟩
    simpa [journalOp, he] using hop

/-- `Loader.Insert` on a rowId that is already journalled: the duplicate
error fires and the loader is returned unchanged. -/
theorem Insert_eq_of_present (l : Loader) (t : String)
    (pk dataArg : List (String × String)) (rb : Option Nat) (ti : TableInfo) (op0 : Operation)
    (ht : lookupKV l.tables t = some ti)
    (hop : journalOp l t (createRowUniqueID pk) = some op0) :
    l.Insert t pk dataArg rb =
      (.error ("primary key already scheduled for insertion in table " ++ t), l) := by
  obtain ⟨entry, he, hfound⟩ := entries_isSome_of_journalOp hop
  simp [Loader.Insert, ht, he, hfound]

/-- `Loader.Insert` on a fresh rowId of a known table: the Insert operation
is journalled (with the primary-key columns copied into the data) and the
entry count bumped. -/
theorem Insert_eq_of_fresh (l : Loader) (t : String)
    (pk dataArg : List (String × String)) (rb : Option Nat) (ti : TableInfo)
    (ht : lookupKV l.tables t = some ti)
    (hfresh : journalOp l t (createRowUniqueID pk) = none) :
    l.Insert t pk dataArg rb = (.ok (), { l with
      entries := setKV l.entries t
        (setKV ((lookupKV l.entries t).getD []) (createRowUniqueID pk)
          (newInsertOperation ti pk (insertDataFull ti pk dataArg) rb)),
      entriesCount := l.entriesCount + 1 }) := by
  cases he : lookupKV l.entries t with
  | some entry =>
    have hnone : lookupKV entry (createRowUniqueID pk) = none := by
      simpa [journalOp, he] using hfresh
    simp [Loader.Insert, ht, he, hnone]
  | none =>
    simp [Loader.Insert, ht, he, lookupKV, setKV_setKV]

/-- `Loader.Delete` on a known single-primary-column table when the rowId is
already journalled: the existing operation is overwritten by a Delete and
the entry count is not bumped. -/
theorem Delete_eq_of_present (l : Loader) (t : String)
    (pk : List (String × String)) (rb : Option Nat) (ti : TableInfo) (op0 : Operation)
    (hOI : l.onlyInserts = false)
    (ht : lookupKV l.tables t = some ti)
    (hpc : ti.primaryColumns.length = 1)
    (hop : journalOp l t (createRowUniqueID pk) = some op0) :
    l.Delete t pk rb = (.ok (), { l with
      entries := setKV l.entries t
        (setKV ((lookupKV l.entries t).getD []) (createRowUniqueID pk)
          (newDeleteOperation ti pk rb)) }) := by
  obtain ⟨entry, he, hfound⟩ := entries_isSome_of_journalOp hop
  simp [Loader.Delete, hOI, ht, hpc, he, hfound]

/-- C5: a second `Insert` for a rowId that already has a pending journal
operation of any kind is rejected with an error and leaves the journal
untouched. -/
theorem double_insert_rejected (l : Loader) (t : String)
    (pk dataArg : List (String × String)) (rb : Option Nat) (ti : TableInfo) (op0 : Operation)
    (ht : lookupKV l.tables t = some ti)
    (hop : journalOp l t (createRowUniqueID pk) = some op0) :
    (∃ e, (l.Insert t pk dataArg rb).1 = Except.error e) ∧
    (l.Insert t pk dataArg rb).2 = l := by
  rw [Insert_eq_of_present l t pk dataArg rb ti op0 ht hop]
  exact ⟨⟨_, rfl⟩, rfl⟩

/-- Witness for C5: re-inserting `id = 42` into table `t` after
`loaderIns` already journals an Insert for it errors and leaves the loader
as it was. -/
theorem double_insert_rejected_witness :
    (∃ e, (loaderIns.Insert "t" [("id", "42")] [] none).1 = Except.error e) ∧
    (loaderIns.Insert "t" [("id", "42")] [] none).2 = loaderIns :=
  double_insert_rejected loaderIns "t" [("id", "42")] [] none tableT opIns
    (by decide) (by decide)

/-- C4: `Loader.Update` against an existing journal operation — an existing
Delete is an error (loader unchanged); any other existing operation gets the
new fields merged in (last write wins per field, via `Operation.mergeData`),
its kind preserved, with no second journal entry and no entry-count bump. -/
theorem update_merge_semantics (l : Loader) (t : String)
    (pk dataArg : List (String × String)) (rb : Option Nat) (ti : TableInfo) (op0 : Operation)
    (hOI : l.onlyInserts = false)
    (ht : lookupKV l.tables t = some ti)
    (hpc : ti.primaryColumns ≠ [])
    (hop : journalOp l t (createRowUniqueID pk) = some op0) :
    (op0.opType = OperationType.opDelete →
      (∃ e, (l.Update t pk dataArg rb).1 = Except.error e) ∧
      (l.Update t pk dataArg rb).2 = l) ∧
    (op0.opType ≠ OperationType.opDelete →
      (l.Update t pk dataArg rb).1 = Except.ok () ∧
      journalOp (l.Update t pk dataArg rb).2 t (createRowUniqueID pk) =
        some (op0.mergeData dataArg) ∧
      (op0.mergeData dataArg).opType = op0.opType ∧
      (l.Update t pk dataArg rb).2.entriesCount = l.entriesCount ∧
      (∀ uid', uid' ≠ createRowUniqueID pk →
        journalOp (l.Update t pk dataArg rb).2 t uid' = journalOp l t uid') ∧
      ((lookupKV (l.Update t pk dataArg rb).2.entries t).getD []).length =
        ((lookupKV l.entries t).getD []).length) := by
  obtain ⟨entry, he, hfound⟩ := entries_isSome_of_journalOp hop
  constructor
  · intro hdel
    have hres : l.Update t pk dataArg rb =
        (.error "attempting to update an object scheduled to be deleted", l) := by
      simp [Loader.Update, hOI, ht, hpc, he, hfound, hdel]
    rw [hres]
    exact ⟨⟨_, rfl⟩, rfl⟩
  · intro hdel
    have hres : l.Update t pk dataArg rb = (.ok (), { l with
        entries := setKV l.entries t
          (setKV entry (createRowUniqueID pk) (op0.mergeData dataArg)) }) := by
      simp [Loader.Update, hOI, ht, hpc, he, hfound, hdel]
    rw [hres]
    refine ⟨rfl, ?_, ?_, rfl, ?_, ?_⟩
    · simp [journalOp, lookup_setKV_self]
    · simp [Operation.mergeData]
    · intro uid' hne
      simp only [journalOp, he, Option.getD_some]
      rw [lookup_setKV_self, Option.getD_some,
        lookup_setKV_ne entry (createRowUniqueID pk) uid' _ (Ne.symm hne)]
    · rw [lookup_setKV_self, Option.getD_some, he, Option.getD_some]
      exact length_setKV_of_isSome entry (createRowUniqueID pk) _ (by simp [hfound])

/-- Witness for C4: after `loaderIns` journals an Insert for `id = 42`, an
`Update` with field `a = y` succeeds, merges the field into the pending
Insert, preserves the Insert kind and does not bump the entry count. -/
theorem update_merge_semantics_witness :
    (loaderIns.Update "t" [("id", "42")] [("a", "y")] none).1 = Except.ok () ∧
    journalOp (loaderIns.Update "t" [("id", "42")] [("a", "y")] none).2 "t"
        (createRowUniqueID [("id", "42")]) = some (opIns.mergeData [("a", "y")]) ∧
    (opIns.mergeData [("a", "y")]).opType = opIns.opType ∧
    (loaderIns.Update "t" [("id", "42")] [("a", "y")] none).2.entriesCount =
      loaderIns.entriesCount := by
  have h := (update_merge_semantics loaderIns "t" [("id", "42")] [("a", "y")] none tableT opIns
    (by decide) (by decide) (by decide) (by decide)).2 (by decide)
  exact ⟨h.1, h.2.1, h.2.2.1, h.2.2.2.1⟩

/-- C3 counterexample: the claim states that after `Insert(t, pk)` then
`Delete(t, pk)` the journal holds no operation for `(t, rowId(pk))`; in
fact both calls succeed and the journal then holds a Delete operation
carrying the primary key. -/
theorem insert_delete_journal_cex :
    (loader0.Insert "t" [("id", "42")] [] none).1 = Except.ok () ∧
    (loaderIns.Delete "t" [("id", "42")] none).1 = Except.ok () ∧
    journalOp loaderDel "t" (createRowUniqueID [("id", "42")]) =
      some (newDeleteOperation tableT [("id", "42")] none) :=
  ⟨rfl, rfl, by decide⟩

/-- C3 amended: `Insert(t, pk)` followed by `Delete(t, pk)` in the same
flush window leaves exactly a Delete operation journalled at
`(t, rowId(pk))` — it carries the pk and empty data, and at flush it emits
a DELETE statement (never an INSERT), so no row is applied to `t`, though
the pk does reach the database as the DELETE's argument. -/
theorem insert_then_delete_journals_delete (l : Loader) (t : String)
    (pk dataArg : List (String × String)) (rb1 rb2 : Option Nat) (ti : TableInfo)
    (hOI : l.onlyInserts = false)
    (ht : lookupKV l.tables t = some ti)
    (hpc : ti.primaryColumns.length = 1)
    (hfresh : journalOp l t (createRowUniqueID pk) = none) :
    (l.Insert t pk dataArg rb1).1 = Except.ok () ∧
    ((l.Insert t pk dataArg rb1).2.Delete t pk rb2).1 = Except.ok () ∧
    journalOp ((l.Insert t pk dataArg rb1).2.Delete t pk rb2).2 t (createRowUniqueID pk) =
      some (newDeleteOperation ti pk rb2) ∧
    (newDeleteOperation ti pk rb2).primaryKey = pk ∧
    (newDeleteOperation ti pk rb2).opData = [] ∧
    flushStatementKind (newDeleteOperation ti pk rb2) = StatementKind.deleteRow := by
  have hIns := Insert_eq_of_fresh l t pk dataArg rb1 ti ht hfresh
  have hOI1 : (l.Insert t pk dataArg rb1).2.onlyInserts = false := by rw [hIns]; exact hOI
  have ht1 : lookupKV (l.Insert t pk dataArg rb1).2.tables t = some ti := by rw [hIns]; exact ht
  have hop1 : journalOp (l.Insert t pk dataArg rb1).2 t (createRowUniqueID pk) =
      some (newInsertOperation ti pk (insertDataFull ti pk dataArg) rb1) := by
    rw [hIns]
    simp [journalOp, lookup_setKV_self]
  have hDel := Delete_eq_of_present (l.Insert t pk dataArg rb1).2 t pk rb2 ti _
    hOI1 ht1 hpc hop1
  refine ⟨by rw [hIns], by rw [hDel], ?_, rfl, rfl, rfl⟩
  rw [hDel]
  simp [journalOp, lookup_setKV_self]

/-- Witness for C3's amended theorem on `loader0`: insert then delete
`id = 42` in table `t`, with the Delete carrying reversible block 7. -/
theorem insert_then_delete_journals_delete_witness :
    journalOp ((loader0.Insert "t" [("id", "42")] [] none).2.Delete "t" [("id", "42")]
        (some 7)).2 "t" (createRowUniqueID [("id", "42")]) =
      some (newDeleteOperation tableT [("id", "42")] (some 7)) :=
  (insert_then_delete_journals_delete loader0 "t" [("id", "42")] [] none (some 7) tableT
    (by decide) (by decide) (by decide) (by decide)).2.2.1

/-- C8: whenever `Loader.Insert`, `Loader.Update` or `Loader.Delete` returns
an error — unknown table, insert-only dialect, duplicate insert,
update-after-delete, or wrong primary-key arity — the loader state returned
with the error is exactly the input state: no operation added, removed or
modified, no sub-journal created, `entriesCount` unchanged. -/
theorem mutation_error_leaves_loader_unchanged (l : Loader) (t : String)
    (pk dataArg : List (String × String)) (rb : Option Nat) :
    (∀ e l', l.Insert t pk dataArg rb = (Except.error e, l') → l' = l) ∧
    (∀ e l', l.Update t pk dataArg rb = (Except.error e, l') → l' = l) ∧
    (∀ e l', l.Delete t pk rb = (Except.error e, l') → l' = l) := by
  refine ⟨?_, ?_, ?_⟩
  · intro e l' hres
    cases ht : lookupKV l.tables t with
    | none =>
      simp only [Loader.Insert, ht, Prod.mk.injEq] at hres
      exact hres.2.symm
    | some ti =>
      cases he : lookupKV l.entries t with
      | some entry =>
        cases hfound : lookupKV entry (createRowUniqueID pk) with
        | some op0 =>
          simp only [Loader.Insert, ht, he, hfound, Option.isSome_some, if_true,
            Option.getD_some, Prod.mk.injEq] at hres
          exact hres.2.symm
        | none =>
          simp [Loader.Insert, ht, he, hfound] at hres
      | none =>
        simp [Loader.Insert, ht, he, lookupKV] at hres
  · intro e l' hres
    by_cases hOI : l.onlyInserts
    · simp only [Loader.Update, hOI, if_true, Prod.mk.injEq] at hres
      exact hres.2.symm
    · cases ht : lookupKV l.tables t with
      | none =>
        simp only [Loader.Update, hOI, if_false, ht, Prod.mk.injEq,
          Bool.false_eq_true] at hres
        exact hres.2.symm
      | some ti =>
        by_cases hpc : ti.primaryColumns = []
        · simp only [Loader.Update, hOI, ht, hpc, if_true, if_false, Prod.mk.injEq,
            Bool.false_eq_true] at hres
          exact hres.2.symm
        · cases he : lookupKV l.entries t with
          | some entry =>
            cases hfound : lookupKV entry (createRowUniqueID pk) with
            | some op0 =>
              by_cases hdel : op0.opType = OperationType.opDelete
              · simp only [Loader.Update, hOI, ht, hpc, he, hfound, hdel, if_true, if_false,
                  Option.isSome_some, Option.getD_some, Prod.mk.injEq,
                  Bool.false_eq_true] at hres
                exact hres.2.symm
              · simp [Loader.Update, hOI, ht, hpc, he, hfound, hdel] at hres
            | none =>
              simp [Loader.Update, hOI, ht, hpc, he, hfound] at hres
          | none =>
            simp [Loader.Update, hOI, ht, hpc, he, lookupKV] at hres
  · intro e l' hres
    by_cases hOI : l.onlyInserts
    · simp only [Loader.Delete, hOI, if_true, Prod.mk.injEq] at hres
      exact hres.2.symm
    · cases ht : lookupKV l.tables t with
      | none =>
        simp only [Loader.Delete, hOI, if_false, ht, Prod.mk.injEq,
          Bool.false_eq_true] at hres
        exact hres.2.symm
      | some ti =>
        by_cases hpc : ti.primaryColumns.length = 1
        · simp [Loader.Delete, hOI, ht, hpc] at hres
        · simp only [Loader.Delete, hOI, ht, hpc, ne_eq, not_false_eq_true, if_true,
            if_false, Bool.false_eq_true, Prod.mk.injEq] at hres
          exact hres.2.symm

/-- Witness for C8: on `loaderIns`, a duplicate Insert, an Update against an
unknown table, and a Delete against an unknown table each error and return
the loader unchanged. -/
theorem mutation_error_leaves_loader_unchanged_witness :
    (loaderIns.Insert "t" [("id", "42")] [] none).2 = loaderIns ∧
    (loaderIns.Update "nope" [("id", "42")] [] none).2 = loaderIns ∧
    (loaderIns.Delete "nope" [("id", "42")] none).2 = loaderIns := by
  refine ⟨?_, ?_, ?_⟩
  · exact (mutation_error_leaves_loader_unchanged loaderIns "t" [("id", "42")] [] none).1
      "primary key already scheduled for insertion in table t"
      (loaderIns.Insert "t" [("id", "42")] [] none).2 rfl
  · exact (mutation_error_leaves_loader_unchanged loaderIns "nope" [("id", "42")] [] none).2.1
      "unknown table nope" (loaderIns.Update "nope" [("id", "42")] [] none).2 rfl
  · exact (mutation_error_leaves_loader_unchanged loaderIns "nope" [("id", "42")] [] none).2.2
      "unknown table nope" (loaderIns.Delete "nope" [("id", "42")] none).2 rfl

/-- C2 counterexample: the claim states that an UPDATE or DELETE change is
rejected with an error by `dumpDatabaseChangesIntoCSV`; in fact a payload
holding an UPDATE and a DELETE change for the known table `t` is processed
without error and writes nothing — the empty switch cases skip them
silently. -/
theorem csv_update_delete_skipped_cex :
    dumpDatabaseChangesIntoCSV loader0 bundlers0 [chgUpd, chgDel] =
      some (Except.ok bundlers0) := rfl

/-- C2 amended: in CSV mode a decoded `TableChange` for a known table with a
resolvable primary key and a bundler is handled as follows — an UPDATE or
DELETE change is silently skipped (no error, no bundler write), only a
CREATE change is CSV-encoded and written to the table's bundler, and a
change whose operation is none of CREATE/UPDATE/DELETE (UNSET) is rejected
with the append-only error. -/
theorem csv_non_create_skipped (l : Loader) (bundlers : List (String × FileBundler))
    (change : TableChange) (ti : TableInfo) (pkFields : List (String × String))
    (tb : FileBundler)
    (ht : lookupKV l.tables change.table = some ti)
    (hpk : resolvePrimaryKey l change.table change.primaryKey = some (Except.ok pkFields))
    (hb : lookupKV bundlers change.table = some tb) :
    ((change.operation = ChangeOperation.update ∨
      change.operation = ChangeOperation.delete) →
      dumpDatabaseChangeIntoCSV l bundlers change = some (Except.ok bundlers)) ∧
    (change.operation = ChangeOperation.create →
      dumpDatabaseChangeIntoCSV l bundlers change = some (Except.ok (setKV bundlers change.table
        (bundlerWriteRow tb (CSVEncode
          (change.fields.foldl (fun acc f => setKV acc f.name f.newValue) pkFields)))))) ∧
    (change.operation = ChangeOperation.unset →
      dumpDatabaseChangeIntoCSV l bundlers change =
        some (Except.error "Currently, we only support append only databases")) := by
  refine ⟨?_, ?_, ?_⟩
  · rintro (hop | hop) <;> simp [dumpDatabaseChangeIntoCSV, ht, hpk, hb, hop]
  · intro hop
    simp [dumpDatabaseChangeIntoCSV, ht, hpk, hb, hop]
  · intro hop
    simp [dumpDatabaseChangeIntoCSV, ht, hpk, hb, hop]

/-- Witness for C2's amended theorem: the UPDATE change `chgUpd` on
`loader0`'s table `t` is skipped, returning the bundler map unchanged. -/
theorem csv_non_create_skipped_witness :
    dumpDatabaseChangeIntoCSV loader0 bundlers0 chgUpd = some (Except.ok bundlers0) :=
  (csv_non_create_skipped loader0 bundlers0 chgUpd tableT [("id", "1")] bundler0
    (by decide) rfl (by decide)).1 (Or.inl rfl)

/-- `createRowUniqueID` coincides, on every input, with the slash-join of
the values looked up at the sorted keys (the singleton shortcut of the
source returns the same string the general path would). -/
theorem createRowUniqueID_eq_sorted_form (m : List (String × String)) :
    createRowUniqueID m = String.intercalate "/"
      (((m.map Prod.fst).insertionSort strLe).map (fun k => (lookupKV m k).getD "")) := by
  match m with
  | [] => rfl
  | [(k, v)] =>
    simp [createRowUniqueID, lookupKV, String.intercalate, String.intercalate.go]
  | a :: b :: rest => rfl

/-- `rowUniqueIDSpec` coincides, on every input, with the slash-join of the
values of the pairs sorted by key. -/
theorem rowUniqueIDSpec_eq_sorted_form (m : List (String × String)) :
    rowUniqueIDSpec m = String.intercalate "/"
      ((m.insertionSort (fun a b => strLe a.1 b.1)).map Prod.snd) := by
  match m with
  | [] => rfl
  | [(k, v)] => simp [rowUniqueIDSpec, String.intercalate, String.intercalate.go]
  | a :: b :: rest => rfl

/-- C7: `createRowUniqueID` is a pure function of the primary-key map —
permuting the insertion order of a map with distinct columns leaves the row
id unchanged — and it equals the claim's reference definition
(`rowUniqueIDSpec`: values sorted by column name joined with `/`, bare
value for a singleton). -/
theorem createRowUniqueID_pure_and_spec (m1 m2 : List (String × String))
    (hnd : (m1.map Prod.fst).Nodup) (hp : m1.Perm m2) :
    createRowUniqueID m1 = createRowUniqueID m2 ∧
    createRowUniqueID m1 = rowUniqueIDSpec m1 := by
  constructor
  · rw [createRowUniqueID_eq_sorted_form, createRowUniqueID_eq_sorted_form]
    have hkeys : (m1.map Prod.fst).insertionSort strLe =
        (m2.map Prod.fst).insertionSort strLe :=
      List.eq_of_perm_of_sorted
        (((List.perm_insertionSort _ _).trans (hp.map Prod.fst)).trans
          (List.perm_insertionSort _ _).symm)
        (List.sorted_insertionSort _ _) (List.sorted_insertionSort _ _)
    rw [hkeys]
    congr 1
    exact List.map_congr_left (fun k _ => by rw [lookup_eq_of_perm hp hnd k])
  · rw [createRowUniqueID_eq_sorted_form, rowUniqueIDSpec_eq_sorted_form]
    congr 1
    have hmap : ((m1.insertionSort (fun a b => strLe a.1 b.1)).map Prod.fst) =
        (m1.map Prod.fst).insertionSort strLe :=
      List.map_insertionSort (fun a b => strLe a.1 b.1) strLe Prod.fst m1
        (fun _ _ _ _ => Iff.rfl)
    rw [← hmap, List.map_map]
    apply List.map_congr_left
    intro p hmem
    have hpm : p ∈ m1 := (List.perm_insertionSort _ m1).subset hmem
    obtain ⟨k, v⟩ := p
    simp only [Function.comp_apply]
    rw [lookup_eq_some_of_mem hnd hpm]
    rfl

/-- Witness for C7: the two insertion orders of the composite key
`{a ↦ 1, b ↦ 2}` give the same row id, which matches the reference
definition and evaluates to `1/2`. -/
theorem createRowUniqueID_pure_and_spec_witness :
    createRowUniqueID [("b", "2"), ("a", "1")] = createRowUniqueID [("a", "1"), ("b", "2")] ∧
    createRowUniqueID [("b", "2"), ("a", "1")] = rowUniqueIDSpec [("b", "2"), ("a", "1")] ∧
    createRowUniqueID [("b", "2"), ("a", "1")] = "1/2" := by
  have h := createRowUniqueID_pure_and_spec [("b", "2"), ("a", "1")] [("a", "1"), ("b", "2")]
    (by decide) (List.Perm.swap ("a", "1") ("b", "2") [])
  exact ⟨h.1, h.2, by decide⟩

end Sink
